import Mathlib

/-!
Shallow embedding of the mage character controller (src/src/mage.rs and
src/src/main.rs): input-to-ability projection, cast latch, movement
resolution and the idle/walk/attack animation state machine.

Time is modelled in nanoseconds as `Nat` (the cooldown and walk timers are
both `Timer::from_seconds(0.5, _)`, i.e. 500000000 ns).  Velocities are
exact small integers (`Int`), since the source only ever assigns the
constants 0.0, 10.0 and -10.0 to the velocity components.
-/

namespace MagicMania

/-- Bevy `TimerMode` (the source uses `Once` for the spell cooldown and
`Repeating` for the walk frame timer). -/
inductive TimerMode where
  | Once : TimerMode
  | Repeating : TimerMode
deriving DecidableEq

/-- Bevy `Timer`, elapsed time in nanoseconds.  Fields mirror bevy 0.11's
`Timer`: stopwatch elapsed, total duration, mode, finished flag and
`times_finished_this_tick`. -/
structure Timer where
  duration : Nat
  elapsed : Nat
  mode : TimerMode
  finished : Bool
  timesFinishedThisTick : Nat
deriving DecidableEq

/-- Bevy `Timer::from_seconds(secs, mode)`: fresh timer, nothing elapsed. -/
def Timer.fromNanos (d : Nat) (m : TimerMode) : Timer :=
  { duration := d, elapsed := 0, mode := m, finished := false,
    timesFinishedThisTick := 0 }

/-- Bevy 0.11 `Timer::tick(delta)` (the un-paused path): a finished
non-repeating timer is left alone; otherwise the stopwatch advances, a
`Once` timer clamps its elapsed time to the duration on completion, and a
`Repeating` timer wraps modulo the duration, recording how many periods
completed this tick. -/
def Timer.tick (t : Timer) (delta : Nat) : Timer :=
  if t.mode ≠ TimerMode.Repeating ∧ t.finished then
    { t with timesFinishedThisTick := 0 }
  else
    let e := t.elapsed + delta
    if t.duration ≤ e then
      if t.mode = TimerMode.Repeating then
        { t with elapsed := e % t.duration, finished := true,
                 timesFinishedThisTick := e / t.duration }
      else
        { t with elapsed := t.duration, finished := true,
                 timesFinishedThisTick := 1 }
    else
      { t with elapsed := e, finished := false, timesFinishedThisTick := 0 }

/-- Bevy `Timer::just_finished()`. -/
def Timer.justFinished (t : Timer) : Bool :=
  t.timesFinishedThisTick ≠ 0

/-- Bevy `Timer::reset()`. -/
def Timer.reset (t : Timer) : Timer :=
  { t with elapsed := 0, finished := false, timesFinishedThisTick := 0 }

/-- The 0.5 s used by both timers in `setup_mage`, in nanoseconds. -/
def halfSecond : Nat := 500000000

/-- Enum `MageActions` (mage.rs lines 21-29), in declaration order. -/
inductive MageActions where
  | Up | Down | Left | Right | SpellPrimary | SpellSecondary
deriving DecidableEq

/-- Leafwing `MageActions::variants()` enumerates the variants in declaration
order. -/
def MageActions.variants : List MageActions :=
  [MageActions.Up, MageActions.Down, MageActions.Left, MageActions.Right,
   MageActions.SpellPrimary, MageActions.SpellSecondary]

/-- Enum `Spell` (mage.rs lines 31-35). -/
inductive Spell where
  | BlastLaunch | BlastActivate
deriving DecidableEq

/-- Leafwing `ActionData`: the per-action temporal record (pressed state,
edge flags and how long the button has been held).  The source only moves
these records around as opaque values (`.clone()` in `copy_action_state`),
so the exact field set matters only insofar as it is copied wholesale. -/
structure ActionData where
  pressed : Bool
  justPressed : Bool
  justReleased : Bool
  durationHeld : Nat
deriving DecidableEq

/-- Leafwing `ActionState::default()`: every action released, no edges. -/
def ActionData.default : ActionData :=
  { pressed := false, justPressed := false, justReleased := false,
    durationHeld := 0 }

/-- Component `Mage` (mage.rs lines 14-19). -/
structure Mage where
  firing_spell : Bool
  is_walking : Bool
  spell_cooldown : Timer
deriving DecidableEq

/-- Component `RepeatingAnimation` (mage.rs lines 42-46).  The
`Cycle<RangeInclusive<i32>>` over `0..=1` is represented by the number of
`next()` calls made so far: call number `p` (0-based) yields `p % 2`. -/
structure RepeatingAnimation where
  next_frame_index : Nat
  frame_timer : Timer
deriving DecidableEq

/-- One `next()` on the `(0..=1).cycle()` iterator: the value produced and
the advanced iterator. -/
def cycleNext (p : Nat) : Int × Nat :=
  (if p % 2 = 0 then (0 : Int) else 1, p + 1)

/-- The per-entity state touched by the mage systems: the `Mage` and
`RepeatingAnimation` components, the two leafwing action states, the spell
slot map, the sprite's frame index and the physics linear velocity. -/
structure MageState where
  mage : Mage
  walk_animation : RepeatingAnimation
  slot_action_state : MageActions → ActionData
  spell_action_state : Spell → ActionData
  spell_slot_map : MageActions → Option Spell
  sprite_index : Nat
  velocity : Int × Int

/-- The slot map built in `setup_mage` (lines 75-77):
SpellPrimary ↦ BlastLaunch, SpellSecondary ↦ BlastActivate. -/
def setupSlotMap : MageActions → Option Spell
  | MageActions.SpellPrimary => some Spell.BlastLaunch
  | MageActions.SpellSecondary => some Spell.BlastActivate
  | _ => none

/-- The entity state spawned by `setup_mage` (lines 79-119): flags false,
0.5 s one-shot cooldown, walk cycle already advanced once (so its first
`next()` in `animate_mage` yields 1), 0.5 s repeating frame timer, default
action states, sprite starting on frame 0, zero velocity. -/
def setupState : MageState :=
  { mage := { firing_spell := false, is_walking := false,
              spell_cooldown := Timer.fromNanos halfSecond TimerMode.Once },
    walk_animation :=
      { next_frame_index := (cycleNext 0).2,
        frame_timer := Timer.fromNanos halfSecond TimerMode.Repeating },
    slot_action_state := fun _ => ActionData.default,
    spell_action_state := fun _ => ActionData.default,
    spell_slot_map := setupSlotMap,
    sprite_index := 0,
    velocity := (0, 0) }

/-- The core loop of `copy_action_state` (lines 129-137): for each
`MageActions` variant in order, if the slot map has an entry, overwrite the
spell-keyed record at the mapped ability with a copy of the slot-keyed
record. -/
def copyActionState (slotMap : MageActions → Option Spell)
    (slotState : MageActions → ActionData)
    (spellState : Spell → ActionData) : Spell → ActionData :=
  MageActions.variants.foldl
    (fun acc slot =>
      match slotMap slot with
      | some matching_ability =>
          fun a => if a = matching_ability then slotState slot else acc a
      | none => acc)
    spellState

/-- The `copy_action_state` system (lines 122-138) on the single mage
entity. -/
def copy_action_state (st : MageState) : MageState :=
  { st with
    spell_action_state :=
      copyActionState st.spell_slot_map st.slot_action_state
        st.spell_action_state }

/-- The `use_spell` system (lines 148-154): on a `BlastLaunch` press edge,
set `firing_spell`. -/
def use_spell (st : MageState) : MageState :=
  if (st.spell_action_state Spell.BlastLaunch).justPressed then
    { st with mage := { st.mage with firing_spell := true } }
  else st

/-- The `movevement` system (lines 156-183): zero the velocity, return
early while `firing_spell`, otherwise clear `is_walking` and run the four
direction checks in order Right, Left, Up, Down. -/
def movevement (st : MageState) : MageState :=
  let st := { st with velocity := (0, 0) }
  if st.mage.firing_spell then st
  else
    let st := { st with mage := { st.mage with is_walking := false } }
    let st :=
      if (st.slot_action_state MageActions.Right).pressed then
        { st with velocity := (10, st.velocity.2),
                  mage := { st.mage with is_walking := true } }
      else st
    let st :=
      if (st.slot_action_state MageActions.Left).pressed then
        { st with velocity := (-10, st.velocity.2),
                  mage := { st.mage with is_walking := true } }
      else st
    let st :=
      if (st.slot_action_state MageActions.Up).pressed then
        { st with velocity := (st.velocity.1, 10),
                  mage := { st.mage with is_walking := true } }
      else st
    let st :=
      if (st.slot_action_state MageActions.Down).pressed then
        { st with velocity := (st.velocity.1, -10),
                  mage := { st.mage with is_walking := true } }
      else st
    st

/-- The `animate_mage` system (lines 185-209).  `delta` is the frame time
in nanoseconds.  The second component records, in order, every value the
system writes to `sprite.index` during the run (the casting branch can
write 2 and then 0 within a single run). -/
def animate_mage (delta : Nat) (st : MageState) : MageState × List Nat :=
  if st.mage.firing_spell then
    let writes1 : List Nat :=
      if st.mage.spell_cooldown.elapsed = 0 then [2] else []
    let sprite1 : Nat :=
      if st.mage.spell_cooldown.elapsed = 0 then 2 else st.sprite_index
    let cd := st.mage.spell_cooldown.tick delta
    if cd.justFinished then
      ({ st with
          mage := { st.mage with
                    firing_spell := false,
                    spell_cooldown := cd.reset },
          sprite_index := 0 },
       writes1 ++ [0])
    else
      ({ st with mage := { st.mage with spell_cooldown := cd },
                 sprite_index := sprite1 },
       writes1)
  else if st.mage.is_walking then
    let ft := st.walk_animation.frame_timer.tick delta
    if ft.justFinished then
      let v := cycleNext st.walk_animation.next_frame_index
      ({ st with
          walk_animation := { next_frame_index := v.2, frame_timer := ft },
          sprite_index := v.1.toNat },
       [v.1.toNat])
    else
      ({ st with
          walk_animation := { st.walk_animation with frame_timer := ft } },
       [])
  else (st, [])

/-- One whole tick of the plugin's schedule (mage.rs lines 211-223): the
input layer publishes this tick's `ActionState<MageActions>` records, then
`copy_action_state` projects them (PreUpdate), then the Update chain
`use_spell`, `movevement`, `animate_mage` runs in order. -/
def stepTick (input : MageActions → ActionData) (delta : Nat)
    (st : MageState) : MageState :=
  (animate_mage delta
    (movevement (use_spell
      (copy_action_state { st with slot_action_state := input })))).1

/-- Running a whole trace of ticks (per-tick input and frame delta). -/
def runTicks (trace : List ((MageActions → ActionData) × Nat))
    (st : MageState) : MageState :=
  trace.foldl (fun s p => stepTick p.1 p.2 s) st

/-- Iterating the `animate_mage` system alone with a fixed frame delta. -/
def animateTicks (delta : Nat) : Nat → MageState → MageState
  | 0, st => st
  | n + 1, st => animateTicks delta n (animate_mage delta st).1

/-- A held button's temporal record (pressed, past its press edge). -/
def heldData : ActionData :=
  { pressed := true, justPressed := false, justReleased := false,
    durationHeld := 16000000 }

/-- A just-pressed button's temporal record (press edge this tick). -/
def edgeData : ActionData :=
  { pressed := true, justPressed := true, justReleased := false,
    durationHeld := 0 }

/-- Example per-tick input: only the Right key held. -/
def inputRight : MageActions → ActionData
  | MageActions.Right => heldData
  | _ => ActionData.default

/-- Example per-tick input: Right held while Q (SpellPrimary) is
just pressed. -/
def inputRightCast : MageActions → ActionData
  | MageActions.Right => heldData
  | MageActions.SpellPrimary => edgeData
  | _ => ActionData.default

/-- Example per-tick input: all four directions held at once. -/
def inputAllDirs : MageActions → ActionData
  | MageActions.SpellPrimary => ActionData.default
  | MageActions.SpellSecondary => ActionData.default
  | _ => heldData

/-- A 16 ms frame delta in nanoseconds. -/
def d16 : Nat := 16000000

/-- Example state: mid-cast while `is_walking` is still set (reachable,
see the C1 counterexample), with Right held. -/
def exCastWalkState : MageState :=
  { setupState with
      mage := { setupState.mage with
                firing_spell := true, is_walking := true },
      slot_action_state := inputRight,
      spell_action_state := copyActionState setupSlotMap inputRightCast
        (fun _ => ActionData.default) }

/-- Example state: cast latch just set, cooldown untouched. -/
def exCastFreshState : MageState :=
  { setupState with
      mage := { setupState.mage with firing_spell := true } }

/-- Example state: all four directions held, not casting. -/
def exAllDirsState : MageState :=
  { setupState with slot_action_state := inputAllDirs }

/-- Example state: walking, walk timer and cycle in their setup
position. -/
def walkStart : MageState :=
  { setupState with
      mage := { setupState.mage with is_walking := true } }

/-- Example state: walking resumed with 0.49 s already accumulated on the
walk frame timer and the cycle two yields in (its next value is 0). -/
def exResumeState : MageState :=
  { setupState with
      mage := { setupState.mage with is_walking := true },
      walk_animation :=
        { next_frame_index := 2,
          frame_timer :=
            { duration := halfSecond, elapsed := 490000000,
              mode := TimerMode.Repeating, finished := false,
              timesFinishedThisTick := 0 } } }

/-! Theorems.  Claim C1 is settled against the code: `movevement` returns
on `firing_spell` *before* the `mage.is_walking = false` write (mage.rs
lines 162-165), so `is_walking` keeps its previous value while casting. -/

/-- C1 (counterexample): the Movement Resolver does not set `is_walking`
to false before short-circuiting on a casting tick.  On a concrete casting
state with `is_walking` set, `is_walking` is still true after the resolver
runs; the two-tick trace (walk right, then press the spell key while still
holding right) shows such a state is reachable from spawn, so `is_walking`
is not always false while casting. -/
theorem movement_keeps_walking_while_casting_cex :
    (movevement exCastWalkState).mage.is_walking = true ∧
    (runTicks [(inputRight, d16), (inputRightCast, d16)]
        setupState).mage.firing_spell = true ∧
    (runTicks [(inputRight, d16), (inputRightCast, d16)]
        setupState).mage.is_walking = true := by
  decide

/-- C1 (amended): on every tick on which the Movement Resolver runs with
`is_casting` true, it short-circuits before the `is_walking` reset and the
direction checks, so the velocity it leaves is zero but the whole `Mage`
component — `is_walking` included — keeps its previous value; `is_walking`
is cleared only on non-casting ticks. -/
theorem movement_short_circuit_while_casting (st : MageState)
    (h : st.mage.firing_spell = true) :
    (movevement st).velocity = (0, 0) ∧ (movevement st).mage = st.mage := by
  simp [movevement, h]

/-- Witness for the amended C1 at a concrete casting state. -/
theorem movement_short_circuit_while_casting_witness :
    exCastWalkState.mage.firing_spell = true ∧
    (movevement exCastWalkState).velocity = (0, 0) ∧
    (movevement exCastWalkState).mage = exCastWalkState.mage :=
  ⟨rfl, (movement_short_circuit_while_casting exCastWalkState rfl).1,
   (movement_short_circuit_while_casting exCastWalkState rfl).2⟩

/-- C2: on every tick on which `firing_spell` (is_casting) is true, the
velocity written by the Movement Resolver is `(0, 0)`, whatever the
directional action records hold. -/
theorem movement_velocity_zero_while_casting (st : MageState)
    (h : st.mage.firing_spell = true) :
    (movevement st).velocity = (0, 0) := by
  simp [movevement, h]

/-- Witness for C2 at a concrete casting state (with Right held). -/
theorem movement_velocity_zero_while_casting_witness :
    exCastWalkState.slot_action_state MageActions.Right = heldData ∧
    exCastWalkState.mage.firing_spell = true ∧
    (movevement exCastWalkState).velocity = (0, 0) :=
  ⟨rfl, rfl, movement_velocity_zero_while_casting exCastWalkState rfl⟩

/-- C3: with casting off, holding Right and Left together leaves
`velocity.x = -10` (Right writes +10 first, Left overwrites with -10), and
holding Up and Down together leaves `velocity.y = -10` (Up writes +10
first, Down overwrites with -10): each axis is last-write-wins in the
fixed order Right, Left, Up, Down. -/
theorem movement_axis_last_write_wins (st : MageState)
    (h : st.mage.firing_spell = false) :
    ((st.slot_action_state MageActions.Right).pressed = true →
      (st.slot_action_state MageActions.Left).pressed = true →
      (movevement st).velocity.1 = -10) ∧
    ((st.slot_action_state MageActions.Up).pressed = true →
      (st.slot_action_state MageActions.Down).pressed = true →
      (movevement st).velocity.2 = -10) := by
  constructor
  · intro hR hL
    cases hU : (st.slot_action_state MageActions.Up).pressed <;>
      cases hD : (st.slot_action_state MageActions.Down).pressed <;>
        simp [movevement, h, hR, hL, hU, hD]
  · intro hU hD
    cases hR : (st.slot_action_state MageActions.Right).pressed <;>
      cases hL : (st.slot_action_state MageActions.Left).pressed <;>
        simp [movevement, h, hR, hL, hU, hD]

/-- Witness for C3: all four directions held at once, not casting. -/
theorem movement_axis_last_write_wins_witness :
    exAllDirsState.mage.firing_spell = false ∧
    (movevement exAllDirsState).velocity.1 = -10 ∧
    (movevement exAllDirsState).velocity.2 = -10 :=
  ⟨rfl, (movement_axis_last_write_wins exAllDirsState rfl).1 rfl rfl,
   (movement_axis_last_write_wins exAllDirsState rfl).2 rfl rfl⟩

/-- Setting `firing_spell` on a mage whose `firing_spell` is already true
changes nothing. -/
theorem Mage.set_firing_true_self (m : Mage) (h : m.firing_spell = true) :
    Mage.mk true m.is_walking m.spell_cooldown = m := by
  cases m with
  | mk f w c => simp_all

/-- C4: after the Ability State Projector runs with the slot map built in
`setup_mage`, every `MageActions` slot `L` mapped to a `Spell` `A` has its
full temporal record (pressed flag, edge flags, held duration) copied
verbatim into the spell-keyed state at `A`: the two records from the same
tick are equal as values. -/
theorem projection_fidelity (st : MageState) (L : MageActions) (A : Spell)
    (hmap : st.spell_slot_map = setupSlotMap)
    (h : st.spell_slot_map L = some A) :
    (copy_action_state st).spell_action_state A = st.slot_action_state L := by
  cases L <;> cases A <;>
    simp_all [hmap, setupSlotMap, copy_action_state, copyActionState,
      MageActions.variants]

/-- Witness for C4 on the spawn state: SpellPrimary maps to BlastLaunch
and its record is copied. -/
theorem projection_fidelity_witness :
    setupState.spell_slot_map = setupSlotMap ∧
    setupState.spell_slot_map MageActions.SpellPrimary =
      some Spell.BlastLaunch ∧
    (copy_action_state setupState).spell_action_state Spell.BlastLaunch =
      setupState.slot_action_state MageActions.SpellPrimary :=
  ⟨rfl, rfl,
   projection_fidelity setupState MageActions.SpellPrimary Spell.BlastLaunch
     rfl rfl⟩

/-- C5: the cast latch is idempotent and one-way.  Pressing BlastLaunch
while `firing_spell` is already true leaves the whole state (cooldown
included) unchanged; `use_spell` changes nothing without a press edge; the
Movement Resolver never touches `firing_spell`; and, while casting, the
Animation Driver clears `firing_spell` exactly when the ticked cooldown
just finished, otherwise leaving the ticked cooldown in place (no reset,
no extension beyond the frame delta). -/
theorem cast_latch_idempotent (st : MageState) (delta : Nat) :
    (st.mage.firing_spell = true → use_spell st = st) ∧
    ((st.spell_action_state Spell.BlastLaunch).justPressed = false →
      use_spell st = st) ∧
    (movevement st).mage.firing_spell = st.mage.firing_spell ∧
    (st.mage.firing_spell = true →
      ((animate_mage delta st).1.mage.firing_spell = false ↔
        (st.mage.spell_cooldown.tick delta).justFinished = true)) ∧
    (st.mage.firing_spell = true →
      (st.mage.spell_cooldown.tick delta).justFinished = false →
      (animate_mage delta st).1.mage.spell_cooldown =
        st.mage.spell_cooldown.tick delta) := by
  refine ⟨?_, ?_, ?_, ?_, ?_⟩
  · intro h
    unfold use_spell
    split
    · rw [Mage.set_firing_true_self st.mage h]
    · rfl
  · intro h
    simp [use_spell, h]
  · cases hf : st.mage.firing_spell <;>
      cases hR : (st.slot_action_state MageActions.Right).pressed <;>
      cases hL : (st.slot_action_state MageActions.Left).pressed <;>
      cases hU : (st.slot_action_state MageActions.Up).pressed <;>
      cases hD : (st.slot_action_state MageActions.Down).pressed <;>
        simp [movevement, hf, hR, hL, hU, hD]
  · intro h
    cases hjf : (st.mage.spell_cooldown.tick delta).justFinished <;>
      simp [animate_mage, h, hjf]
  · intro h hjf
    simp [animate_mage, h, hjf]

/-- Witness for C5: a concrete mid-cast state whose BlastLaunch record is
on its press edge is left unchanged by `use_spell`. -/
theorem cast_latch_idempotent_witness :
    exCastWalkState.mage.firing_spell = true ∧
    (exCastWalkState.spell_action_state Spell.BlastLaunch).justPressed =
      true ∧
    use_spell exCastWalkState = exCastWalkState :=
  ⟨rfl, by decide, (cast_latch_idempotent exCastWalkState d16).1 rfl⟩

/-- C6: on a tick where the Animation Driver runs with `firing_spell` true
and zero elapsed cooldown time, the first frame-index write of the run is
2 (the attack pose), and — because the zero check happens before the timer
advances — when the frame delta does not already complete the cooldown,
the run ends with frame 2 displayed and the cooldown advanced to exactly
`delta`. -/
theorem animate_first_cast_frame (st : MageState) (delta : Nat)
    (h : st.mage.firing_spell = true)
    (hz : st.mage.spell_cooldown.elapsed = 0)
    (hf : st.mage.spell_cooldown.finished = false) :
    (animate_mage delta st).2.head? = some 2 ∧
    (delta < st.mage.spell_cooldown.duration →
      (animate_mage delta st).1.sprite_index = 2 ∧
      (animate_mage delta st).1.mage.spell_cooldown.elapsed = delta) := by
  constructor
  · cases hjf : (st.mage.spell_cooldown.tick delta).justFinished <;>
      simp [animate_mage, h, hz, hjf]
  · intro hd
    have hle : ¬ st.mage.spell_cooldown.duration ≤
        st.mage.spell_cooldown.elapsed + delta := by omega
    have htick : st.mage.spell_cooldown.tick delta =
        { st.mage.spell_cooldown with
          elapsed := st.mage.spell_cooldown.elapsed + delta,
          finished := false, timesFinishedThisTick := 0 } := by
      simp [Timer.tick, hf, hle]
    simp [animate_mage, h, hz, htick, Timer.justFinished]

/-- Witness for C6: first casting tick from a fresh cooldown with a 16 ms
delta. -/
theorem animate_first_cast_frame_witness :
    exCastFreshState.mage.firing_spell = true ∧
    exCastFreshState.mage.spell_cooldown.elapsed = 0 ∧
    exCastFreshState.mage.spell_cooldown.finished = false ∧
    d16 < exCastFreshState.mage.spell_cooldown.duration ∧
    (animate_mage d16 exCastFreshState).2.head? = some 2 ∧
    (animate_mage d16 exCastFreshState).1.sprite_index = 2 :=
  ⟨rfl, rfl, rfl, by decide,
   (animate_first_cast_frame exCastFreshState d16 rfl rfl rfl).1,
   ((animate_first_cast_frame exCastFreshState d16 rfl rfl rfl).2
     (by decide)).1⟩

/-- Unfolding one application of `animate_mage` off the back of an
`animateTicks` iteration. -/
theorem animateTicks_succ_back (delta n : Nat) (st : MageState) :
    animateTicks delta (n + 1) st =
      (animate_mage delta (animateTicks delta n st)).1 := by
  induction n generalizing st with
  | zero => rfl
  | succ k ih =>
    rw [animateTicks, ih]
    rfl

/-- One casting tick that does not complete the cooldown: `firing_spell`
stays set and the cooldown just accumulates the delta. -/
theorem animate_cast_progress (delta : Nat) (st : MageState)
    (h : st.mage.firing_spell = true)
    (hf : st.mage.spell_cooldown.finished = false)
    (hlt : st.mage.spell_cooldown.elapsed + delta <
      st.mage.spell_cooldown.duration) :
    (animate_mage delta st).1.mage.firing_spell = true ∧
    (animate_mage delta st).1.mage.spell_cooldown =
      { st.mage.spell_cooldown with
        elapsed := st.mage.spell_cooldown.elapsed + delta,
        finished := false, timesFinishedThisTick := 0 } := by
  have hle : ¬ st.mage.spell_cooldown.duration ≤
      st.mage.spell_cooldown.elapsed + delta := by omega
  have htick : st.mage.spell_cooldown.tick delta =
      { st.mage.spell_cooldown with
        elapsed := st.mage.spell_cooldown.elapsed + delta,
        finished := false, timesFinishedThisTick := 0 } := by
    simp [Timer.tick, hf, hle]
  simp [animate_mage, h, htick, Timer.justFinished]

/-- One casting tick that completes the one-shot cooldown: the latch drops,
the timer is reset to zero elapsed and the displayed frame becomes 0. -/
theorem animate_cast_complete (delta : Nat) (st : MageState)
    (h : st.mage.firing_spell = true)
    (hm : st.mage.spell_cooldown.mode = TimerMode.Once)
    (hf : st.mage.spell_cooldown.finished = false)
    (hge : st.mage.spell_cooldown.duration ≤
      st.mage.spell_cooldown.elapsed + delta) :
    (animate_mage delta st).1.mage.firing_spell = false ∧
    (animate_mage delta st).1.mage.spell_cooldown.elapsed = 0 ∧
    (animate_mage delta st).1.sprite_index = 0 := by
  have htick : st.mage.spell_cooldown.tick delta =
      { st.mage.spell_cooldown with
        elapsed := st.mage.spell_cooldown.duration,
        finished := true, timesFinishedThisTick := 1 } := by
    simp [Timer.tick, hf, hge, hm]
  simp [animate_mage, h, htick, Timer.justFinished, Timer.reset]

/-- While the accumulated time stays below the cooldown duration, iterated
animation ticks keep the cast latch set and just accumulate elapsed
time. -/
theorem animateTicks_casting (delta : Nat) :
    ∀ (j : Nat) (st : MageState),
      st.mage.firing_spell = true →
      st.mage.spell_cooldown.mode = TimerMode.Once →
      st.mage.spell_cooldown.finished = false →
      st.mage.spell_cooldown.elapsed + j * delta <
        st.mage.spell_cooldown.duration →
      (animateTicks delta j st).mage.firing_spell = true ∧
      (animateTicks delta j st).mage.spell_cooldown.mode =
        TimerMode.Once ∧
      (animateTicks delta j st).mage.spell_cooldown.finished = false ∧
      (animateTicks delta j st).mage.spell_cooldown.elapsed =
        st.mage.spell_cooldown.elapsed + j * delta ∧
      (animateTicks delta j st).mage.spell_cooldown.duration =
        st.mage.spell_cooldown.duration := by
  intro j
  induction j with
  | zero =>
    intro st h hm hf hj
    simp [animateTicks, h, hm, hf]
  | succ k ih =>
    intro st h hm hf hj
    have hsm : (k + 1) * delta = k * delta + delta := by ring
    rw [hsm] at hj
    have hlt : st.mage.spell_cooldown.elapsed + delta <
        st.mage.spell_cooldown.duration := by omega
    obtain ⟨h1, h2⟩ := animate_cast_progress delta st h hf hlt
    have goal_eq : animateTicks delta (k + 1) st =
        animateTicks delta k (animate_mage delta st).1 := rfl
    rw [goal_eq, hsm]
    have hm' : (animate_mage delta st).1.mage.spell_cooldown.mode =
        TimerMode.Once := by rw [h2]; exact hm
    have hf' : (animate_mage delta st).1.mage.spell_cooldown.finished =
        false := by rw [h2]
    have he' : (animate_mage delta st).1.mage.spell_cooldown.elapsed =
        st.mage.spell_cooldown.elapsed + delta := by rw [h2]
    have hd' : (animate_mage delta st).1.mage.spell_cooldown.duration =
        st.mage.spell_cooldown.duration := by rw [h2]
    obtain ⟨g1, g2, g3, g4, g5⟩ :=
      ih (animate_mage delta st).1 h1 hm' hf' (by rw [he', hd']; omega)
    exact ⟨g1, g2, g3, by rw [g4, he']; omega, by rw [g5, hd']⟩


/-- C7: starting a cast with the fresh 0.5 s one-shot cooldown and a fixed
per-tick delta, `firing_spell` is still true after every number of ticks
whose cumulative elapsed time stays below 0.5 s, and on the first tick
where the cumulative elapsed time reaches or exceeds 0.5 s (tick `n + 1`)
the latch drops, the timer is back at zero elapsed, and the displayed
frame index is 0 — all on that same tick. -/
theorem cooldown_exact_timing (st : MageState) (delta n : Nat)
    (h : st.mage.firing_spell = true)
    (hcd : st.mage.spell_cooldown =
      Timer.fromNanos halfSecond TimerMode.Once)
    (hn : n * delta < halfSecond)
    (hs : halfSecond ≤ (n + 1) * delta) :
    (∀ k, k ≤ n → (animateTicks delta k st).mage.firing_spell = true) ∧
    (animateTicks delta (n + 1) st).mage.firing_spell = false ∧
    (animateTicks delta (n + 1) st).mage.spell_cooldown.elapsed = 0 ∧
    (animateTicks delta (n + 1) st).sprite_index = 0 := by
  have hm : st.mage.spell_cooldown.mode = TimerMode.Once := by rw [hcd]; rfl
  have hf : st.mage.spell_cooldown.finished = false := by rw [hcd]; rfl
  have hz : st.mage.spell_cooldown.elapsed = 0 := by rw [hcd]; rfl
  have hdur : st.mage.spell_cooldown.duration = halfSecond := by
    rw [hcd]; rfl
  have hs' : halfSecond ≤ n * delta + delta := by
    rw [Nat.succ_mul] at hs; exact hs
  constructor
  · intro k hk
    have hkd : k * delta ≤ n * delta := Nat.mul_le_mul_right delta hk
    refine (animateTicks_casting delta k st h hm hf ?_).1
    rw [hz, hdur]
    simpa using lt_of_le_of_lt hkd hn
  · obtain ⟨f1, f2, f3, f4, f5⟩ :=
      animateTicks_casting delta n st h hm hf
        (by rw [hz, hdur]; simpa using hn)
    rw [animateTicks_succ_back]
    refine animate_cast_complete delta _ f1 f2 f3 ?_
    rw [f4, f5, hz, hdur]
    simpa using hs'

/-- Witness for C7: a fresh cast with 16 ms ticks; 31 ticks accumulate
0.496 s and keep the latch, the 32nd reaches 0.512 s ≥ 0.5 s and ends the
cast. -/
theorem cooldown_exact_timing_witness :
    31 * d16 < halfSecond ∧ halfSecond ≤ (31 + 1) * d16 ∧
    (animateTicks d16 31 exCastFreshState).mage.firing_spell = true ∧
    (animateTicks d16 (31 + 1) exCastFreshState).mage.firing_spell =
      false ∧
    (animateTicks d16 (31 + 1)
        exCastFreshState).mage.spell_cooldown.elapsed = 0 ∧
    (animateTicks d16 (31 + 1) exCastFreshState).sprite_index = 0 :=
  ⟨by decide, by decide,
   (cooldown_exact_timing exCastFreshState d16 31 rfl rfl (by decide)
       (by decide)).1 31 le_rfl,
   (cooldown_exact_timing exCastFreshState d16 31 rfl rfl (by decide)
       (by decide)).2.1,
   (cooldown_exact_timing exCastFreshState d16 31 rfl rfl (by decide)
       (by decide)).2.2.1,
   (cooldown_exact_timing exCastFreshState d16 31 rfl rfl (by decide)
       (by decide)).2.2.2⟩

/-- One walking tick of exactly one timer period: the repeating frame
timer wraps back to zero elapsed, completes once, and the next walk-cycle
value is displayed. -/
theorem animate_walk_period (st : MageState)
    (hf : st.mage.firing_spell = false)
    (hw : st.mage.is_walking = true)
    (hm : st.walk_animation.frame_timer.mode = TimerMode.Repeating)
    (hd : st.walk_animation.frame_timer.duration = halfSecond)
    (he : st.walk_animation.frame_timer.elapsed = 0) :
    (animate_mage halfSecond st).1.mage = st.mage ∧
    (animate_mage halfSecond st).1.walk_animation.frame_timer =
      { duration := halfSecond, elapsed := 0,
        mode := TimerMode.Repeating, finished := true,
        timesFinishedThisTick := 1 } ∧
    (animate_mage halfSecond st).1.walk_animation.next_frame_index =
      st.walk_animation.next_frame_index + 1 ∧
    (animate_mage halfSecond st).1.sprite_index =
      (cycleNext st.walk_animation.next_frame_index).1.toNat := by
  have hpos : (0 : Nat) < halfSecond := by norm_num [halfSecond]
  have htick : st.walk_animation.frame_timer.tick halfSecond =
      { duration := halfSecond, elapsed := 0,
        mode := TimerMode.Repeating, finished := true,
        timesFinishedThisTick := 1 } := by
    simp [Timer.tick, hm, hd, he, Nat.mod_self, Nat.div_self hpos]
  simp [animate_mage, hf, hw, htick, Timer.justFinished, cycleNext]

/-- Iterating `animate_mage` from the walking spawn state with one full
0.5 s period per tick: the cast latch stays clear, the frame timer ends
each tick at zero elapsed, the cycle has advanced once per completed
period, and the displayed frame alternates 1, 0, 1, 0, … from the initial
0. -/
theorem animateTicks_walking (k : Nat) :
    (animateTicks halfSecond k walkStart).mage = walkStart.mage ∧
    (animateTicks halfSecond k
        walkStart).walk_animation.frame_timer.duration = halfSecond ∧
    (animateTicks halfSecond k
        walkStart).walk_animation.frame_timer.mode =
      TimerMode.Repeating ∧
    (animateTicks halfSecond k
        walkStart).walk_animation.frame_timer.elapsed = 0 ∧
    (animateTicks halfSecond k
        walkStart).walk_animation.next_frame_index = 1 + k ∧
    (animateTicks halfSecond k walkStart).sprite_index =
      (if k = 0 then 0 else if k % 2 = 1 then 1 else 0) := by
  induction k with
  | zero =>
    refine ⟨rfl, rfl, rfl, rfl, rfl, rfl⟩
  | succ k ih =>
    obtain ⟨i1, i2, i3, i4, i5, i6⟩ := ih
    have hf : (animateTicks halfSecond k walkStart).mage.firing_spell =
        false := by rw [i1]; rfl
    have hw : (animateTicks halfSecond k walkStart).mage.is_walking =
        true := by rw [i1]; rfl
    obtain ⟨t1, t2, t3, t4⟩ :=
      animate_walk_period (animateTicks halfSecond k walkStart)
        hf hw i3 i2 i4
    rw [animateTicks_succ_back]
    refine ⟨by rw [t1, i1], by rw [t2], by rw [t2], by rw [t2],
      by rw [t3, i5]; omega, ?_⟩
    rw [t4, i5]
    rcases Nat.mod_two_eq_zero_or_one (k + 1) with hp | hp
    · have hp' : (1 + k) % 2 = 0 := by omega
      simp [cycleNext, hp, hp']
    · have hp' : (1 + k) % 2 = 1 := by omega
      simp [cycleNext, hp, hp']

/-- C8: starting from displayed frame 0 on the walking spawn state, each
completion of the 0.5 s repeating walk timer advances the walk cycle,
whose first yield is 1, so after `k + 1` completions the displayed frame
is 1 for even `k` and 0 for odd `k`: the sequence 1, 0, 1, 0, …
indefinitely. -/
theorem walk_cycle_sequencing (k : Nat) :
    (animateTicks halfSecond 0 walkStart).sprite_index = 0 ∧
    (animateTicks halfSecond (k + 1) walkStart).sprite_index =
      (if k % 2 = 0 then 1 else 0) := by
  constructor
  · rfl
  · have h := (animateTicks_walking (k + 1)).2.2.2.2.2
    rw [h]
    rcases Nat.mod_two_eq_zero_or_one k with hp | hp
    · have hp' : (k + 1) % 2 = 1 := by omega
      simp [hp, hp']
    · have hp' : (k + 1) % 2 = 0 := by omega
      simp [hp, hp']

/-- Every frame index the Animation Driver writes during one run is at
most 2: the casting branch writes 2 or 0, and the walk branch writes a
walk-cycle value, which is 0 or 1. -/
theorem animate_writes_le (st : MageState) (delta w : Nat)
    (hw : w ∈ (animate_mage delta st).2) : w ≤ 2 := by
  cases hf : st.mage.firing_spell
  · cases hwk : st.mage.is_walking
    · simp [animate_mage, hf, hwk] at hw
    · cases hjf : (st.walk_animation.frame_timer.tick delta).justFinished
      · simp [animate_mage, hf, hwk, hjf] at hw
      · simp [animate_mage, hf, hwk, hjf, cycleNext] at hw
        rcases Nat.mod_two_eq_zero_or_one
            st.walk_animation.next_frame_index with hp | hp <;>
          simp [hp] at hw <;> omega
  · by_cases he : st.mage.spell_cooldown.elapsed = 0 <;>
      cases hjf : (st.mage.spell_cooldown.tick delta).justFinished <;>
        simp [animate_mage, hf, he, hjf] at hw <;> omega

/-- One animation run either leaves the displayed frame alone or writes a
value at most 2. -/
theorem animate_sprite_le (st : MageState) (delta : Nat) :
    (animate_mage delta st).1.sprite_index = st.sprite_index ∨
    (animate_mage delta st).1.sprite_index ≤ 2 := by
  cases hf : st.mage.firing_spell
  · cases hwk : st.mage.is_walking
    · left; simp [animate_mage, hf, hwk]
    · cases hjf : (st.walk_animation.frame_timer.tick delta).justFinished
      · left; simp [animate_mage, hf, hwk, hjf]
      · right
        simp [animate_mage, hf, hwk, hjf, cycleNext]
        rcases Nat.mod_two_eq_zero_or_one
            st.walk_animation.next_frame_index with hp | hp <;> simp [hp]
  · by_cases he : st.mage.spell_cooldown.elapsed = 0
    · cases hjf : (st.mage.spell_cooldown.tick delta).justFinished
      · right; simp [animate_mage, hf, he, hjf]
      · right; simp [animate_mage, hf, he, hjf]
    · cases hjf : (st.mage.spell_cooldown.tick delta).justFinished
      · left; simp [animate_mage, hf, he, hjf]
      · right; simp [animate_mage, hf, he, hjf]

/-- The Movement Resolver never writes the displayed frame index. -/
theorem movevement_sprite (st : MageState) :
    (movevement st).sprite_index = st.sprite_index := by
  cases hf : st.mage.firing_spell <;>
    cases hR : (st.slot_action_state MageActions.Right).pressed <;>
    cases hL : (st.slot_action_state MageActions.Left).pressed <;>
    cases hU : (st.slot_action_state MageActions.Up).pressed <;>
    cases hD : (st.slot_action_state MageActions.Down).pressed <;>
      simp [movevement, hf, hR, hL, hU, hD]

/-- The spell trigger detector never writes the displayed frame index. -/
theorem use_spell_sprite (st : MageState) :
    (use_spell st).sprite_index = st.sprite_index := by
  unfold use_spell
  split <;> rfl

/-- A whole tick keeps the displayed frame index at most 2. -/
theorem stepTick_sprite_le (i : MageActions → ActionData) (d : Nat)
    (st : MageState) (h : st.sprite_index ≤ 2) :
    (stepTick i d st).sprite_index ≤ 2 := by
  unfold stepTick
  have hms :
      (movevement (use_spell (copy_action_state
        { st with slot_action_state := i }))).sprite_index =
        st.sprite_index := by
    rw [movevement_sprite, use_spell_sprite]; rfl
  rcases animate_sprite_le (movevement (use_spell (copy_action_state
      { st with slot_action_state := i }))) d with h1 | h1
  · rw [h1, hms]; exact h
  · exact h1

/-- Frame-range preservation along any trace of ticks. -/
theorem runTicks_sprite_le
    (trace : List ((MageActions → ActionData) × Nat)) (st : MageState)
    (h : st.sprite_index ≤ 2) :
    (runTicks trace st).sprite_index ≤ 2 := by
  induction trace generalizing st with
  | nil => exact h
  | cons p rest ih => exact ih _ (stepTick_sprite_le p.1 p.2 st h)

/-- C9: the frame at spawn is 0, every frame index the Animation Driver
ever writes is 0, 1 or 2, and after any trace of ticks from spawn the
displayed frame index is still at most 2. -/
theorem sprite_frames_in_range :
    setupState.sprite_index = 0 ∧
    (∀ (st : MageState) (delta w : Nat),
      w ∈ (animate_mage delta st).2 → w ≤ 2) ∧
    ∀ (trace : List ((MageActions → ActionData) × Nat)),
      (runTicks trace setupState).sprite_index ≤ 2 :=
  ⟨rfl, animate_writes_le,
   fun trace => runTicks_sprite_le trace setupState (by decide)⟩

/-- Witness for C9: the attack-pose write on a first casting tick is in
range, as is the displayed frame after a concrete one-tick trace. -/
theorem sprite_frames_in_range_witness :
    2 ∈ (animate_mage d16 exCastFreshState).2 ∧ 2 ≤ 2 ∧
    (runTicks [(inputRight, d16)] setupState).sprite_index ≤ 2 :=
  ⟨by decide,
   sprite_frames_in_range.2.1 exCastFreshState d16 2 (by decide),
   sprite_frames_in_range.2.2 [(inputRight, d16)]⟩

/-- C10: on any tick where the character is casting or not walking, the
Animation Driver leaves the whole walk animation record — frame timer
elapsed time and cycle position — untouched, so they persist across idle
and casting periods; and on a tick where walking is active with persisted
elapsed time, a delta that pushes the accumulated time past the period
(even a delta far below 0.5 s) completes the timer, displaying the next
value of the persisted cycle and advancing the cycle by one, continuing
the previous alternation rather than restarting it. -/
theorem walk_timer_persistence (st : MageState) (delta : Nat) :
    (st.mage.firing_spell = true ∨ st.mage.is_walking = false →
      (animate_mage delta st).1.walk_animation = st.walk_animation) ∧
    (st.mage.firing_spell = false → st.mage.is_walking = true →
      st.walk_animation.frame_timer.mode = TimerMode.Repeating →
      0 < st.walk_animation.frame_timer.duration →
      st.walk_animation.frame_timer.duration ≤
        st.walk_animation.frame_timer.elapsed + delta →
      (animate_mage delta st).1.sprite_index =
        (cycleNext st.walk_animation.next_frame_index).1.toNat ∧
      (animate_mage delta st).1.walk_animation.next_frame_index =
        st.walk_animation.next_frame_index + 1) := by
  constructor
  · intro h
    cases hf : st.mage.firing_spell
    · have hwk : st.mage.is_walking = false := by
        rcases h with h | h
        · rw [hf] at h; exact absurd h (by decide)
        · exact h
      simp [animate_mage, hf, hwk]
    · cases hjf : (st.mage.spell_cooldown.tick delta).justFinished <;>
        simp [animate_mage, hf, hjf]
  · intro hf hw hm hdp hge
    have hjf : (st.walk_animation.frame_timer.tick delta).justFinished =
        true := by
      simp only [Timer.tick, hm, ne_eq, not_true_eq_false, false_and,
        if_false, hge, if_true, if_pos, Timer.justFinished]
      simp [hge]
      exact (Nat.div_pos hge hdp).ne'
    simp [animate_mage, hf, hw, hjf, cycleNext]

/-- Witness for C10: the walk record survives a casting tick unchanged,
and after walking resumes with 0.49 s persisted, a 16 ms delta already
flips the frame to the cycle's next value (0, continuing the
alternation). -/
theorem walk_timer_persistence_witness :
    exCastWalkState.mage.firing_spell = true ∧
    (animate_mage d16 exCastWalkState).1.walk_animation =
      exCastWalkState.walk_animation ∧
    exResumeState.mage.firing_spell = false ∧
    exResumeState.mage.is_walking = true ∧
    exResumeState.walk_animation.frame_timer.duration ≤
      exResumeState.walk_animation.frame_timer.elapsed + d16 ∧
    d16 < exResumeState.walk_animation.frame_timer.duration ∧
    (animate_mage d16 exResumeState).1.sprite_index =
      (cycleNext exResumeState.walk_animation.next_frame_index).1.toNat ∧
    (animate_mage d16 exResumeState).1.walk_animation.next_frame_index =
      exResumeState.walk_animation.next_frame_index + 1 :=
  ⟨rfl, (walk_timer_persistence exCastWalkState d16).1 (Or.inl rfl),
   rfl, rfl, by decide, by decide,
   ((walk_timer_persistence exResumeState d16).2 rfl rfl rfl (by decide)
     (by decide)).1,
   ((walk_timer_persistence exResumeState d16).2 rfl rfl rfl (by decide)
     (by decide)).2⟩

end MagicMania
